import Mathlib

/-!
Verification of the igcc interactive C++ REPL session engine (`igcc/run.py`).

The development shallowly embeds the session engine:

* the two classification regexes `PREAMBLE_RE` and `FUNC_DEF_RE` (boolean
  `re.match` semantics; greedy/lazy quantifiers are irrelevant to whether a
  match exists, so matching is modelled by the regular language of each
  pattern, decided with Brzozowski derivatives);
* the session state of `Runner` (`user_input`, `input_num`, `compile_error`,
  `output_chars_printed`, `error_chars_printed`, `show_line_numbers`);
* the history operations `redo`/`undo`, input appending, the compile+run
  cycle of `do_run` (with the external compiler/binary outcomes supplied as
  oracle inputs), and the dot-command dispatch `check_input_type`;
* the program assembler `get_full_source` (`SOURCE_CODE_TEMPLATE` rendered by
  jinja2 plus `_clean_source`), modelled at line granularity: a multi-line
  text is represented by its list of lines (the python code only ever joins
  lines with "\n" and splits on "\n" again).
-/

namespace Igcc

/-! ### Character classes

ASCII fragment of python's `\s` (`[ \t\n\r\x0b\x0c]`) and `\w`
(`[A-Za-z0-9_]`); the source is only ever fed terminal input, where the
ASCII reading of the classes is the relevant one. -/

def isPyWs (c : Char) : Bool :=
  c = ' ' || c = '\t' || c = '\n' || c = '\r' || c = '\x0b' || c = '\x0c'

def isPyWord (c : Char) : Bool :=
  c.isAlphanum || c = '_'

/-! ### A tiny regular-expression engine

`re.match(p, s)` succeeds iff some prefix of `s` belongs to the language of
`p`; the language is insensitive to greedy/lazy annotations and capture
groups, so only plain regular operators are needed.  Matching is decided
with Brzozowski derivatives; `scat`/`salt` prune dead branches so that
concrete evaluation stays small. -/

inductive RE where
  | emp : RE
  | eps : RE
  | cls : (Char → Bool) → RE
  | cat : RE → RE → RE
  | alt : RE → RE → RE
  | star : RE → RE

def RE.nullable : RE → Bool
  | .emp => false
  | .eps => true
  | .cls _ => false
  | .cat a b => a.nullable && b.nullable
  | .alt a b => a.nullable || b.nullable
  | .star _ => true

def scat : RE → RE → RE
  | .emp, _ => .emp
  | _, .emp => .emp
  | .eps, b => b
  | a, .eps => a
  | a, b => .cat a b

def salt : RE → RE → RE
  | .emp, b => b
  | a, .emp => a
  | a, b => .alt a b

def RE.deriv : RE → Char → RE
  | .emp, _ => .emp
  | .eps, _ => .emp
  | .cls p, c => if p c then .eps else .emp
  | .cat a b, c => if a.nullable then salt (scat (a.deriv c) b) (b.deriv c) else scat (a.deriv c) b
  | .alt a b, c => salt (a.deriv c) (b.deriv c)
  | .star a, c => scat (a.deriv c) (.star a)

/-- Does some prefix of `cs` belong to the language of `r`?  This is the
boolean content of python's `re.match`. -/
def prefixMatch : RE → List Char → Bool
  | r, [] => r.nullable
  | r, c :: cs => r.nullable || prefixMatch (r.deriv c) cs

def chrR (c : Char) : RE := .cls (fun d => d = c)

def strR (s : String) : RE := s.data.foldr (fun c r => .cat (chrR c) r) .eps

def plusR (r : RE) : RE := .cat r (.star r)

def optR (r : RE) : RE := .alt r .eps

def catList (rs : List RE) : RE := rs.foldr .cat .eps

def wsStar : RE := .star (.cls isPyWs)

def wsPlus : RE := plusR (.cls isPyWs)

/-! ### `FUNC_DEF_RE`

```
\s*
(?:(?:static|inline|constexpr|virtual|extern|template\s*<[^>]*>)\s+)*
(?:\w[\w\s\*&:<>,]*?)\s+
(\w+)\s*\([^)]*\)\s*
(?:const\s*)?(?:noexcept\s*)?(?:override\s*)?(?:final\s*)?
\{
```
transcribed operator by operator (capture groups and the lazy `*?` do not
affect the language). -/

def isRetTypeChar (c : Char) : Bool :=
  isPyWord c || isPyWs c || c = '*' || c = '&' || c = ':' || c = '<' || c = '>' || c = ','

def templateQual : RE :=
  catList [strR "template", wsStar, chrR '<', .star (.cls (fun c => !(c = '>'))), chrR '>']

def storageQual : RE :=
  salt (strR "static") (salt (strR "inline") (salt (strR "constexpr")
    (salt (strR "virtual") (salt (strR "extern") templateQual))))

def funcDefRE : RE :=
  catList
    [ wsStar,
      .star (.cat storageQual wsPlus),
      .cat (.cls isPyWord) (.star (.cls isRetTypeChar)),
      wsPlus,
      plusR (.cls isPyWord),
      wsStar, chrR '(',
      .star (.cls (fun c => !(c = ')'))), chrR ')',
      wsStar,
      optR (.cat (strR "const") wsStar),
      optR (.cat (strR "noexcept") wsStar),
      optR (.cat (strR "override") wsStar),
      optR (.cat (strR "final") wsStar),
      chrR '\x7b' ]

/-- `FUNC_DEF_RE.match(x) is not None`. -/
def matchFuncDef (s : String) : Bool := prefixMatch funcDefRE s.data

/-! ### `PREAMBLE_RE`

`\s*(#\s*include)|(using)\s` — by regex precedence this is the alternation
of `\s*(#\s*include)` and `(using)\s`: leading whitespace is permitted only
before `#\s*include`, and `using` must start at the very first character
and be followed by one whitespace character.  Both branches are spelled out
structurally: the tokens following each greedy `\s*` start with a
non-whitespace character (`#` resp. `i`), so the greedy run is exactly
`dropWhile isPyWs`. -/

def preambleInclude (cs : List Char) : Bool :=
  let t := cs.dropWhile isPyWs
  if t.headD ' ' = '#' then "include".data.isPrefixOf ((t.drop 1).dropWhile isPyWs)
  else false

def preambleUsing (cs : List Char) : Bool :=
  "using".data.isPrefixOf cs &&
    (match cs.drop 5 with
     | c :: _ => isPyWs c
     | [] => false)

/-- `PREAMBLE_RE.match(x) is not None`. -/
def matchPreamble (s : String) : Bool :=
  preambleInclude s.data || preambleUsing s.data

/-! ### `UserInput` and classification (`do_run`, lines 113–120) -/

structure UserInput where
  inp : String
  is_include : Bool
  is_function : Bool
  output_chars : Nat
  error_chars : Nat
deriving DecidableEq, Repr

def defaultUI : UserInput := ⟨"", false, false, 0, 0⟩

instance : Inhabited UserInput := ⟨defaultUI⟩

/-- One element of the list comprehension in `do_run`:
`UserInput(x, is_include=PREAMBLE_RE.match(x) is not None,
             is_function=FUNC_DEF_RE.match(x) is not None)`. -/
def classify (x : String) : UserInput :=
  { inp := x
    is_include := matchPreamble x
    is_function := matchFuncDef x
    output_chars := 0
    error_chars := 0 }

/-! ### Session state (`Runner.__init__`) -/

structure RState where
  user_input : List UserInput
  input_num : Nat
  /-- `compile_error`: initially `""`; `run_compile` stores `None` (success,
  modelled `none`) or a non-empty diagnostic string.  `some s` models the
  python string `s`. -/
  compile_error : Option String
  /-- python ints; `undo` subtracts attributed counts, which can drive the
  counters negative, hence `Int`. -/
  output_chars_printed : Int
  error_chars_printed : Int
  show_line_numbers : Bool
deriving DecidableEq, Repr

def initState : RState :=
  { user_input := []
    input_num := 0
    compile_error := some ""
    output_chars_printed := 0
    error_chars_printed := 0
    show_line_numbers := false }

/-! ### History operations (`Runner.redo`, `Runner.undo`, and the
`if col_inp:` block of `Runner.do_run`) -/

/-- `Runner.redo`: indexing `self.user_input[self.input_num - 1]` after the
increment is in bounds whenever `input_num < len(user_input)`, which the
guard establishes; `getD` with `defaultUI` is then exact. -/
def redo (st : RState) : Option String × RState :=
  if st.user_input.length ≤ st.input_num then (none, st)
  else
    (some (st.user_input.getD st.input_num defaultUI).inp,
     { st with input_num := st.input_num + 1 })

/-- `Runner.undo`: after the guard, `input_num - 1 < len(user_input)` holds in
every state the interpreter reaches, so `getD` is exact there as well. -/
def undo (st : RState) : Option String × RState :=
  if st.input_num = 0 then (none, st)
  else
    let undone_input := st.user_input.getD (st.input_num - 1) defaultUI
    (some undone_input.inp,
     { st with
        input_num := st.input_num - 1
        output_chars_printed := st.output_chars_printed - (undone_input.output_chars : Int)
        error_chars_printed := st.error_chars_printed - (undone_input.error_chars : Int) })

/-- The `if col_inp:` block of `do_run`: truncate to the cursor when some
entries are redoable, classify and push the new lines, advance the cursor. -/
def appendInput (st : RState) (lines : List String) : RState :=
  let base := if st.input_num < st.user_input.length
              then st.user_input.take st.input_num else st.user_input
  let new_inp := lines.map classify
  { st with
      user_input := base ++ new_inp
      input_num := st.input_num + new_inp.length }

def undoN : Nat → RState → RState
  | 0, st => st
  | n + 1, st => undoN n (undo st).2

/-! ### The compiler invocation (`Runner.run_compile`) -/

/-- Outcome of the external compiler process: exit status plus the captured
`stderr` text.  `communicate` returns `""` (never `None`) for a piped,
silent stderr; stdout is *not* piped in `run_compile`, so `stdout_data` is
always `None` and contributes nothing. -/
structure CompileOutcome where
  returncode : Int
  stderrData : String
deriving DecidableEq, Repr

def unknownCompileMsg : String :=
  "Unknown compile error - compiler did not write any output."

/-- `Runner.run_compile` after the external process finished: on success
`None`; otherwise `out = "" (+ stdout_data, always None) + stderr_data`,
with the placeholder when `out == ""`. -/
def run_compile (co : CompileOutcome) : Option String :=
  if co.returncode = 0 then none
  else if co.stderrData = "" then some unknownCompileMsg
  else some co.stderrData

/-! ### The compile+run cycle (`do_run`, lines 124–152) -/

/-- Start index of the python slice `s[k:]` for a byte string of length
`len` (python clamps, and counts negative `k` from the right). -/
def pyStartIdx (len : Nat) (k : Int) : Nat :=
  if k < 0 then ((len : Int) + k).toNat else min k.toNat len

/-- Length of the python slice `s[k:]`. -/
def pySuffixLen (len : Nat) (k : Int) : Nat := len - pyStartIdx len k

/-- `self.user_input[-1].output_chars = n`.  On an empty list python raises
`IndexError`; that state is never reached in the traces below, and the
model leaves the empty list unchanged. -/
def setLastOutput : List UserInput → Nat → List UserInput
  | [], _ => []
  | [u], n => [{ u with output_chars := n }]
  | u :: rest, n => u :: setLastOutput rest n

/-- `self.user_input[-1].error_chars = n`. -/
def setLastError : List UserInput → Nat → List UserInput
  | [], _ => []
  | [u], n => [{ u with error_chars := n }]
  | u :: rest, n => u :: setLastError rest n

/-- The `if run_compiler:` block of `do_run`: store the compile result; on
failure print a banner and `continue`; on success run the binary (its
accumulated stream lengths `outLen`/`errLen` are oracle inputs) and report
the new suffix of each stream, attributing its length to `user_input[-1]`. -/
def compileRunStep (st : RState) (co : CompileOutcome) (outLen errLen : Nat) : RState :=
  let ce := run_compile co
  let st1 := { st with compile_error := ce }
  if ce.isSome then st1
  else
    let st2 :=
      if st1.output_chars_printed < (outLen : Int) then
        let len_new := pySuffixLen outLen st1.output_chars_printed
        { st1 with
            output_chars_printed := st1.output_chars_printed + (len_new : Int)
            user_input := setLastOutput st1.user_input len_new }
      else st1
    if st2.error_chars_printed < (errLen : Int) then
      let len_new := pySuffixLen errLen st2.error_chars_printed
      { st2 with
          error_chars_printed := st2.error_chars_printed + (len_new : Int)
          user_input := setLastError st2.user_input len_new }
    else st2

/-! ### Dot-command dispatch (`Runner.check_input_type` and the handlers) -/

/-- python `"\n".join(...)`, at character level. -/
def joinNl (ls : List String) : String :=
  String.mk (List.intercalate ['\n'] (ls.map String.data))

/-- python `inp.startswith(".")`. -/
def startsWithDot (s : String) : Bool :=
  match s.data with
  | c :: _ => c = '.'
  | [] => false

/-- python `x in keys` for a list of command names. -/
def memStr (x : String) : List String → Bool
  | [] => false
  | y :: ys => if x = y then true else memStr x ys

/-- The result of `check_input_type`: either the `IGCCQuitError` raised by
`dot_q`, or the pair `(col_inp, run_compiler)` together with the state after
any handler side effect (`dot_n` flips the flag, `dot_r`/`dot_u` move the
cursor). -/
inductive DispatchResult where
  | quit : DispatchResult
  | cont : Bool → Bool → RState → DispatchResult
deriving DecidableEq, Repr

/-- Keys of the `dot_commands` dict, in source order. -/
def dotCommandNames : List String :=
  [".h", ".c", ".e", ".l", ".L", ".n", ".v", ".r", ".u", ".q"]

/-- The handler table: `dot_h`, `dot_c`, `dot_e`, `dot_l`, `dot_L`, `dot_v`
only print and return `(False, False)`; `dot_n` flips `show_line_numbers`;
`dot_r` redoes and asks for a recompile exactly when something was redone;
`dot_u` undoes; `dot_q` raises. -/
def applyDot (st : RState) (inp : String) : DispatchResult :=
  if inp = ".h" then .cont false false st
  else if inp = ".c" then .cont false false st
  else if inp = ".e" then .cont false false st
  else if inp = ".l" then .cont false false st
  else if inp = ".L" then .cont false false st
  else if inp = ".n" then .cont false false { st with show_line_numbers := !st.show_line_numbers }
  else if inp = ".v" then .cont false false st
  else if inp = ".r" then
    match redo st with
    | (some _, st') => .cont false true st'
    | (none, st') => .cont false false st'
  else if inp = ".u" then .cont false false (undo st).2
  else .quit

/-- `Runner.check_input_type`, applied to `"\n".join(inp)`: dot input that is
not exactly a command name prints the unknown-command banner plus the help
listing (`dot_h`) and yields `(False, False)`; anything else is ordinary
input, `(True, True)`. -/
def check_input_type (st : RState) (inp : String) : DispatchResult :=
  if startsWithDot inp then
    if memStr inp dotCommandNames then applyDot st inp
    else .cont false false st
  else .cont true true st

/-- One iteration of the `while True` loop of `do_run`: dispatch on the
joined input, append the classified lines when `col_inp`, run the
compile+run cycle when `run_compiler`.  `none` models the `IGCCQuitError`
escape; the external compiler/binary outcomes are oracle inputs. -/
def turn (st : RState) (lines : List String) (co : CompileOutcome) (outLen errLen : Nat) :
    Option RState :=
  match check_input_type st (joinNl lines) with
  | .quit => none
  | .cont col_inp run_compiler st' =>
    let st2 := if col_inp then appendInput st' lines else st'
    some (if run_compiler then compileRunStep st2 co outLen errLen else st2)

/-- States the interpreter can reach from a fresh session by any sequence of
inputs (ordinary lines, dot commands) and external process outcomes. -/
inductive Reachable : RState → Prop where
  | init : Reachable initState
  | step {st : RState} {lines : List String} {co : CompileOutcome} {outLen errLen : Nat}
      {st' : RState} (h : Reachable st) (hs : turn st lines co outLen errLen = some st') :
      Reachable st'

/-- What `dot_e` prints: the last compile error, or "No compile errors" when
`compile_error` is falsy (`None` or `""`). -/
def dotEDisplay (st : RState) : String :=
  match st.compile_error with
  | none => "No compile errors"
  | some s => if s = "" then "No compile errors" else s

/-! ### The program assembler

`get_full_source` renders `SOURCE_CODE_TEMPLATE` with the three section
strings and cleans the result with `_clean_source`.  Text is modelled as
its list of lines.  The python section strings are `"\n".join` of the line
lists below; jinja2 tests the *joined* string for truthiness, and
`"\n".join(ls) == ""` exactly when `ls` is `[]` or `[""]`. -/

def get_user_includes (p : List UserInput) : List String :=
  (p.filter (fun a => a.is_include)).map (fun a => a.inp)

def get_user_functions (p : List UserInput) : List String :=
  (p.filter (fun a => a.is_function)).map (fun a => a.inp)

def get_user_commands (p : List UserInput) : List String :=
  (p.filter (fun a => !a.is_include && !a.is_function)).map (fun a => a.inp)

/-- Truthiness of `"\n".join(ls)` in the jinja2 `{% if %}` guards. -/
def joinedNonempty : List String → Bool
  | [] => false
  | [s] => !(s = "")
  | _ :: _ :: _ => true

/-- The jinja2 filter `indent(4, first=False)` applied to `"\n".join(ts)`,
spliced after the literal 4 spaces of the template line `    {{ ... }}`:
the filter appends a newline to its input before splitting (so the block
always ends in an empty line), indents every line but the first, and leaves
empty lines unindented; the template's own 4 spaces indent the first line. -/
def indentBlock : List String → List String
  | [] => ["    ", ""]
  | t :: rest =>
    ("    " ++ t) :: (rest ++ [""]).map (fun l => if l = "" then l else "    " ++ l)

/-- `SOURCE_CODE_TEMPLATE.render(...)` as a list of lines.  Each `{% if %}`
block contributes a leading empty line (the newline ending the previous
literal line meets the newline after the tag) and its section lines; the
newline after each `{% endif %}` contributes one more empty line; the final
render ends with a newline, hence the trailing `""`. -/
def renderLines (incs funcs stmts : List String) : List String :=
  ["#include \"boilerplate.h\""]
  ++ (if joinedNonempty incs then [""] ++ incs else [])
  ++ [""]
  ++ (if joinedNonempty funcs then [""] ++ funcs else [])
  ++ [""]
  ++ ["int main(void) \x7b"]
  ++ indentBlock stmts
  ++ ["    return 0;", "\x7d", ""]

/-- python `line.strip() == ""`. -/
def isBlankLine (l : String) : Bool := l.data.all isPyWs

/-- The loop of `_clean_source`: drop a blank line whenever the previous
kept line was blank. -/
def cleanLines : List String → Bool → List String
  | [], _ => []
  | l :: ls, prev_blank =>
    if isBlankLine l && prev_blank then cleanLines ls prev_blank
    else l :: cleanLines ls (isBlankLine l)

/-- `_clean_source` (line level; python splits on "\n", runs the loop with
`prev_blank = False`, joins back). -/
def clean_source (lines : List String) : List String := cleanLines lines false

/-- `Runner.get_full_source` for a visible prefix `p`. -/
def get_full_source (p : List UserInput) : List String :=
  clean_source (renderLines (get_user_includes p) (get_user_functions p) (get_user_commands p))

/-- No two adjacent lines are both blank. -/
def noTwoBlank : List String → Prop
  | a :: b :: rest => ¬(isBlankLine a = true ∧ isBlankLine b = true) ∧ noTwoBlank (b :: rest)
  | _ => True

/-- The fully assembled shape claimed by the spec, for prefixes whose lines
are non-blank: boilerplate, blank, the directive lines, the function lines,
the entry point wrapping the indented statements, the return, each section
separated by single blank lines and omitted when empty. -/
def assembledForm (p : List UserInput) : List String :=
  ["#include \"boilerplate.h\"", ""]
  ++ (if get_user_includes p = [] then [] else get_user_includes p ++ [""])
  ++ (if get_user_functions p = [] then [] else get_user_functions p ++ [""])
  ++ ["int main(void) \x7b"]
  ++ (if get_user_commands p = [] then ["    "]
      else (get_user_commands p).map (fun t => "    " ++ t) ++ [""])
  ++ ["    return 0;", "\x7d", ""]


/-! ### Attribution bookkeeping -/

/-- Sum of the output bytes attributed to a list of entries. -/
def sumOutputChars (l : List UserInput) : Nat :=
  (l.map (fun u => u.output_chars)).sum

/-- Sum of the error bytes attributed to a list of entries. -/
def sumErrorChars (l : List UserInput) : Nat :=
  (l.map (fun u => u.error_chars)).sum

/-! ### A concrete session trace

The user types `f();` (the program then prints 5 bytes), types `g();` (the
program still prints the same 5 bytes — `g();` prints nothing), undoes
both, then redoes both.  Every compile succeeds, and the binary output is
the deterministic function of the visible prefix: 5 bytes whenever `f();`
is visible.  The intermediate states are spelled out literally and each
`turn` equation is checked by evaluation. -/

def traceS1 : RState := ⟨[⟨"f();", false, false, 5, 0⟩], 1, none, 5, 0, false⟩

def traceS2 : RState :=
  ⟨[⟨"f();", false, false, 5, 0⟩, ⟨"g();", false, false, 0, 0⟩], 2, none, 5, 0, false⟩

def traceS3 : RState :=
  ⟨[⟨"f();", false, false, 5, 0⟩, ⟨"g();", false, false, 0, 0⟩], 1, none, 5, 0, false⟩

def traceS4 : RState :=
  ⟨[⟨"f();", false, false, 5, 0⟩, ⟨"g();", false, false, 0, 0⟩], 0, none, 0, 0, false⟩

def traceS5 : RState :=
  ⟨[⟨"f();", false, false, 5, 0⟩, ⟨"g();", false, false, 5, 0⟩], 1, none, 5, 0, false⟩

def traceS6 : RState :=
  ⟨[⟨"f();", false, false, 5, 0⟩, ⟨"g();", false, false, 5, 0⟩], 2, none, 5, 0, false⟩

/-! ### Spec-side predicates for the classifier claims

These two predicates follow the *spec's words* (not the code) and are
compared against the code-derived `matchPreamble`. -/

/-- The directive criterion as claim C4 states it: ignoring leading
whitespace, the line begins with an include directive (`#`, optional
whitespace, `include`) or with a `using` declaration — leading whitespace
allowed in both cases. -/
def specDirectiveClaim (s : String) : Prop :=
  (∃ a b, s.data = a ++ '#' :: b ∧ (∀ c ∈ a, isPyWs c = true) ∧
    ∃ d e, b = d ++ "include".data ++ e ∧ (∀ c ∈ d, isPyWs c = true))
  ∨ (∃ a c rest, s.data = a ++ "using".data ++ c :: rest ∧
      (∀ x ∈ a, isPyWs x = true) ∧ isPyWs c = true)

/-- The directive criterion the code actually implements: leading
whitespace is allowed only before an include directive; a `using`
declaration is recognized only at the very first character, followed by a
whitespace character. -/
def specDirectiveAmended (s : String) : Prop :=
  (∃ a b, s.data = a ++ '#' :: b ∧ (∀ c ∈ a, isPyWs c = true) ∧
    ∃ d e, b = d ++ "include".data ++ e ∧ (∀ c ∈ d, isPyWs c = true))
  ∨ (∃ c rest, s.data = "using".data ++ c :: rest ∧ isPyWs c = true)



/-! ## Theorems -/

/-! ### The misattribution trace (claims C1 and C2) -/

theorem traceStep1 : turn initState ["f();"] ⟨0, ""⟩ 5 0 = some traceS1 := by decide

theorem traceStep2 : turn traceS1 ["g();"] ⟨0, ""⟩ 5 0 = some traceS2 := by decide

theorem traceStep3 : turn traceS2 [".u"] ⟨0, ""⟩ 0 0 = some traceS3 := by decide

theorem traceStep4 : turn traceS3 [".u"] ⟨0, ""⟩ 0 0 = some traceS4 := by decide

theorem traceStep5 : turn traceS4 [".r"] ⟨0, ""⟩ 5 0 = some traceS5 := by decide

theorem traceStep6 : turn traceS5 [".r"] ⟨0, ""⟩ 5 0 = some traceS6 := by decide

theorem traceS4_reachable : Reachable traceS4 :=
  .step (.step (.step (.step .init traceStep1) traceStep2) traceStep3) traceStep4

theorem traceS6_reachable : Reachable traceS6 :=
  .step (.step traceS4_reachable traceStep5) traceStep6

/-- Claim C1: in every reachable session state, `output_chars_printed`
equals the sum of the `output_chars` attributed to the entries at index
`< input_num` (and likewise for errors).  The code violates this: in the
reachable state `traceS6` (type `f();`, type `g();`, undo twice, redo
twice, each run printing the same 5 bytes), the counter is 5 while the
attributed sums over the visible prefix total 10, because the redo-run
attributed its output to the last list entry even though it sat beyond the
cursor. -/
theorem c1_counter_invariant_violated :
    Reachable traceS6 ∧
    traceS6.output_chars_printed = 5 ∧
    sumOutputChars (traceS6.user_input.take traceS6.input_num) = 10 ∧
    traceS6.output_chars_printed ≠
      (sumOutputChars (traceS6.user_input.take traceS6.input_num) : Int) :=
  ⟨traceS6_reachable, by decide, by decide, by decide⟩

/-- Claim C2: after a successful run that lengthens a stream, the new
suffix is attributed to the entry at index `cursor − 1` — also for runs
triggered by `redo` while further redoable entries exist.  The code
instead attributes to `user_input[-1]`, the last entry of the *list*: in
reachable state `traceS4` (cursor 0, two entries), the redo turn moves the
cursor to 1 and the 5 new bytes are attributed to the entry at index 1
(beyond the cursor, its count changes 0 → 5) while the entry at
`cursor − 1 = 0` keeps its old count. -/
theorem c2_attribution_to_last_list_entry :
    Reachable traceS4 ∧
    turn traceS4 [".r"] ⟨0, ""⟩ 5 0 = some traceS5 ∧
    traceS5.input_num = 1 ∧
    (traceS4.user_input.getD 1 defaultUI).output_chars = 0 ∧
    (traceS5.user_input.getD 1 defaultUI).output_chars = 5 ∧
    (traceS5.user_input.getD 0 defaultUI).output_chars =
      (traceS4.user_input.getD 0 defaultUI).output_chars :=
  ⟨traceS4_reachable, traceStep5, by decide, by decide, by decide, by decide⟩

/-! ### Compile failure semantics (claim C5) -/

/-- Claim C5: when the compiler exits non-zero, `compile_error` is set to
the captured diagnostic text (or the synthesized placeholder when the
compiler emitted nothing), the binary is not run — whatever its streams
would have held, history, cursor and both counters are unchanged — and a
zero exit status clears `compile_error`. -/
theorem c5_compile_failure_semantics (st : RState) (co : CompileOutcome) (outLen errLen : Nat) :
    (co.returncode ≠ 0 →
      (compileRunStep st co outLen errLen).compile_error =
        some (if co.stderrData = "" then unknownCompileMsg else co.stderrData) ∧
      (compileRunStep st co outLen errLen).user_input = st.user_input ∧
      (compileRunStep st co outLen errLen).input_num = st.input_num ∧
      (compileRunStep st co outLen errLen).output_chars_printed = st.output_chars_printed ∧
      (compileRunStep st co outLen errLen).error_chars_printed = st.error_chars_printed) ∧
    (co.returncode = 0 → (compileRunStep st co outLen errLen).compile_error = none) := by
  constructor
  · intro h
    unfold compileRunStep run_compile
    simp only [if_neg h]
    split <;> simp
  · intro h
    unfold compileRunStep run_compile
    simp only [if_pos h, Option.isSome_none, Bool.false_eq_true, if_false]
    split <;> split <;> simp

theorem c5_compile_failure_semantics_witness :
    (compileRunStep initState ⟨1, "boom"⟩ 9 9).compile_error = some "boom" ∧
    (compileRunStep initState ⟨0, ""⟩ 9 9).compile_error = none := by
  constructor
  · have h := (c5_compile_failure_semantics initState ⟨1, "boom"⟩ 9 9).1 (by decide)
    simpa using h.1
  · exact (c5_compile_failure_semantics initState ⟨0, ""⟩ 9 9).2 rfl

/-! ### Truncation on new input (claim C6) -/

/-- Claim C6: in any state with `cursor < length`, appending new (non-redo)
input discards the entries at index `≥ cursor`, appends the classified new
entries, and advances the cursor to the new length; a redo immediately
afterwards therefore returns nothing (and leaves the state unchanged). -/
theorem c6_append_discards_redoable (st : RState) (lines : List String)
    (h : st.input_num < st.user_input.length) :
    (appendInput st lines).user_input =
      st.user_input.take st.input_num ++ lines.map classify ∧
    (appendInput st lines).input_num = (appendInput st lines).user_input.length ∧
    (redo (appendInput st lines)).1 = none ∧
    (redo (appendInput st lines)).2 = appendInput st lines := by
  have h1 : (appendInput st lines).user_input =
      st.user_input.take st.input_num ++ lines.map classify := by
    simp [appendInput, if_pos h]
  have h2 : (appendInput st lines).input_num = (appendInput st lines).user_input.length := by
    rw [h1]
    simp [appendInput, List.length_take, Nat.min_eq_left (Nat.le_of_lt h)]
  have h3 : (appendInput st lines).user_input.length ≤ (appendInput st lines).input_num :=
    Nat.le_of_eq h2.symm
  refine ⟨h1, h2, ?_, ?_⟩ <;> simp [redo, if_pos h3]

theorem c6_append_discards_redoable_witness :
    (appendInput traceS3 ["h();"]).user_input =
      traceS3.user_input.take 1 ++ [classify "h();"] ∧
    (redo (appendInput traceS3 ["h();"])).1 = none := by
  have h := c6_append_discards_redoable traceS3 ["h();"] (by decide)
  exact ⟨h.1, h.2.2.1⟩

/-! ### Classification roles (claims C3 and C4) -/

/-- Claim C3 fails on the code: the two flags are computed independently,
and the line `using a b() {` matches *both* patterns, so it is rendered
both in the directive section and in the function section of the
assembled program — not exactly one role. -/
theorem c3_both_roles_counterexample :
    (classify "using a b() \x7b").is_include = true ∧
    (classify "using a b() \x7b").is_function = true ∧
    get_user_includes [classify "using a b() \x7b"] = ["using a b() \x7b"] ∧
    get_user_functions [classify "using a b() \x7b"] = ["using a b() \x7b"] :=
  ⟨by decide, by decide, by decide, by decide⟩

/-- Claim C3 (amended): every submitted line is flagged `is_include` and
`is_function` independently and is a statement exactly when neither flag is
set; it is therefore rendered in exactly one section of the assembled
program unless it matches both the directive and the function pattern, in
which case it is rendered in both the directive and the function
sections. -/
theorem c3_amended_section_count (x : String) :
    (get_user_includes [classify x]).length + (get_user_functions [classify x]).length +
      (get_user_commands [classify x]).length =
      (if matchPreamble x && matchFuncDef x then 2 else 1) := by
  unfold get_user_includes get_user_functions get_user_commands classify
  cases h1 : matchPreamble x <;> cases h2 : matchFuncDef x <;>
    simp [h1, h2, List.filter]

/-- Whitespace prefixes are transparent to `dropWhile isPyWs`. -/
theorem dropWhile_ws_append (a : List Char) (h : ∀ c ∈ a, isPyWs c = true)
    (l : List Char) : (a ++ l).dropWhile isPyWs = l.dropWhile isPyWs := by
  induction a with
  | nil => rfl
  | cons c cs ih =>
    have hc : isPyWs c = true := h c (by simp)
    rw [List.cons_append, List.dropWhile_cons_of_pos hc]
    exact ih (fun x hx => h x (by simp [hx]))

/-- `preambleInclude` decides exactly the first branch of `PREAMBLE_RE`:
optional whitespace, `#`, optional whitespace, `include`. -/
theorem preambleInclude_iff (cs : List Char) :
    preambleInclude cs = true ↔
      (∃ a b, cs = a ++ '#' :: b ∧ (∀ c ∈ a, isPyWs c = true) ∧
        ∃ d e, b = d ++ "include".data ++ e ∧ (∀ c ∈ d, isPyWs c = true)) := by
  constructor
  · intro h
    unfold preambleInclude at h
    rcases ht : cs.dropWhile isPyWs with _ | ⟨c0, r⟩ <;> rw [ht] at h
    · simp at h
    · by_cases hc0 : c0 = '#'
      case neg => simp [hc0] at h
      case pos =>
        subst hc0
        simp only [List.headD_cons, if_pos rfl, List.drop_succ_cons, List.drop_zero] at h
        refine ⟨cs.takeWhile isPyWs, r, ?_, fun c hc => List.mem_takeWhile_imp hc, ?_⟩
        · conv_lhs => rw [← List.takeWhile_append_dropWhile (p := isPyWs) (l := cs)]
          rw [ht]
        · rcases List.isPrefixOf_iff_prefix.mp h with ⟨e, he⟩
          refine ⟨r.takeWhile isPyWs, e, ?_, fun c hc => List.mem_takeWhile_imp hc⟩
          rw [List.append_assoc, show "include".data = ['i','n','c','l','u','d','e'] from rfl,
            he]
          exact (List.takeWhile_append_dropWhile (p := isPyWs) (l := r)).symm
  · rintro ⟨a, b, rfl, ha, d, e, rfl, hd⟩
    unfold preambleInclude
    rw [dropWhile_ws_append a ha, List.dropWhile_cons_of_neg (by decide)]
    simp only [List.headD_cons, if_pos rfl, List.drop_succ_cons, List.drop_zero]
    rw [List.append_assoc, dropWhile_ws_append d hd]
    have hop : ("include".data ++ e) = 'i' :: ("nclude".data ++ e) := rfl
    rw [hop, List.dropWhile_cons_of_neg (by decide)]
    exact List.isPrefixOf_iff_prefix.mpr ⟨e, rfl⟩

/-- `preambleUsing` decides exactly the second branch of `PREAMBLE_RE`:
`using` at the very start of the line, followed by a whitespace
character. -/
theorem preambleUsing_iff (cs : List Char) :
    preambleUsing cs = true ↔
      (∃ c rest, cs = "using".data ++ c :: rest ∧ isPyWs c = true) := by
  constructor
  · intro h
    unfold preambleUsing at h
    rw [Bool.and_eq_true] at h
    rcases h with ⟨hp, hm⟩
    rcases List.isPrefixOf_iff_prefix.mp hp with ⟨t, ht⟩
    have hdrop : cs.drop 5 = t := by
      rw [← ht]
      exact List.drop_left' (by decide)
    rw [hdrop] at hm
    rcases t with _ | ⟨c, rest⟩
    · simp at hm
    · exact ⟨c, rest, by rw [← ht], hm⟩
  · rintro ⟨c, rest, rfl, hc⟩
    unfold preambleUsing
    rw [Bool.and_eq_true]
    refine ⟨List.isPrefixOf_iff_prefix.mpr ⟨c :: rest, rfl⟩, ?_⟩
    have hdrop : ("using".data ++ c :: rest).drop 5 = c :: rest := rfl
    rw [hdrop]
    exact hc

/-- Claim C4 fails on the code: `" using namespace std;"` begins, after
leading whitespace, with a `using` declaration — the claim's directive
criterion holds — yet the regex alternation binds the leading `\s*` to the
include branch only, so the line is not flagged as a directive (nor as a
function): it becomes a plain statement. -/
theorem c4_leading_ws_using_counterexample :
    specDirectiveClaim " using namespace std;" ∧
    (classify " using namespace std;").is_include = false ∧
    (classify " using namespace std;").is_function = false := by
  refine ⟨Or.inr ⟨[' '], ' ', "namespace std;".data, by decide, ?_, by decide⟩,
    by decide, by decide⟩
  intro x hx
  simp at hx
  subst hx
  decide

/-- Claim C4 (amended): a line is flagged as a directive exactly when,
after ignoring leading whitespace, it begins with an include directive, or
when it begins — at its very first character, with no leading whitespace —
with `using` followed by a whitespace character. -/
theorem c4_amended_directive_characterization (s : String) :
    (classify s).is_include = true ↔ specDirectiveAmended s := by
  show matchPreamble s = true ↔ _
  unfold matchPreamble specDirectiveAmended
  rw [Bool.or_eq_true, preambleInclude_iff, preambleUsing_iff]

theorem c4_amended_directive_characterization_witness :
    specDirectiveAmended "#include <string>" ∧ specDirectiveAmended "using namespace std;" :=
  ⟨(c4_amended_directive_characterization "#include <string>").mp (by decide),
   (c4_amended_directive_characterization "using namespace std;").mp (by decide)⟩

/-! ### Append followed by k undos (claim C7) -/

/-- Freshly classified entries carry zero attributed counts (and so does
the out-of-range default). -/
theorem getD_map_classify (ls : List String) (j : Nat) :
    ((ls.map classify).getD j defaultUI).output_chars = 0 ∧
    ((ls.map classify).getD j defaultUI).error_chars = 0 := by
  induction ls generalizing j with
  | nil => simp [List.getD, defaultUI]
  | cons x xs ih =>
    cases j with
    | zero => simp [classify]
    | succ n => simpa using ih n

/-- Undoing `k` times over entries with zero attributed counts just moves
the cursor back by `k`. -/
theorem undoN_of_zero_counts (k : Nat) :
    ∀ st : RState, k ≤ st.input_num →
    (∀ i, st.input_num - k ≤ i → i < st.input_num →
      (st.user_input.getD i defaultUI).output_chars = 0 ∧
      (st.user_input.getD i defaultUI).error_chars = 0) →
    undoN k st = { st with input_num := st.input_num - k } := by
  induction k with
  | zero =>
    intro st _ _
    simp [undoN]
  | succ n ih =>
    intro st hk hz
    have h0 : ¬(st.input_num = 0) := by omega
    have hc := hz (st.input_num - 1) (by omega) (by omega)
    have hundo : (undo st).2 = { st with input_num := st.input_num - 1 } := by
      simp only [undo, if_neg h0]
      rw [hc.1, hc.2]
      simp
    show undoN n (undo st).2 = _
    rw [hundo]
    rw [ih { st with input_num := st.input_num - 1 } (by simp; omega)
        (fun i h1 h2 => hz i (by simp at h1 ⊢; omega) (by simp at h2; omega))]
    simp only [Nat.sub_sub]
    congr 1
    omega

/-- Claim C7: appending a batch of `k` classified lines and then undoing
exactly `k` times restores the cursor and both output counters to their
pre-append values. -/
theorem c7_append_then_k_undos (st : RState) (lines : List String)
    (h : st.input_num ≤ st.user_input.length) :
    (undoN lines.length (appendInput st lines)).input_num = st.input_num ∧
    (undoN lines.length (appendInput st lines)).output_chars_printed =
      st.output_chars_printed ∧
    (undoN lines.length (appendInput st lines)).error_chars_printed =
      st.error_chars_printed := by
  have hblen : (if st.input_num < st.user_input.length
      then st.user_input.take st.input_num else st.user_input).length = st.input_num := by
    split
    · simp [List.length_take]
      omega
    · omega
  have hA_num : (appendInput st lines).input_num = st.input_num + lines.length := by
    simp [appendInput]
  have hA_ui : (appendInput st lines).user_input =
      (if st.input_num < st.user_input.length
       then st.user_input.take st.input_num else st.user_input) ++ lines.map classify := rfl
  have hA_cnt : (appendInput st lines).output_chars_printed = st.output_chars_printed ∧
      (appendInput st lines).error_chars_printed = st.error_chars_printed := ⟨rfl, rfl⟩
  have hz : ∀ i, (appendInput st lines).input_num - lines.length ≤ i →
      i < (appendInput st lines).input_num →
      (((appendInput st lines).user_input.getD i defaultUI).output_chars = 0 ∧
       ((appendInput st lines).user_input.getD i defaultUI).error_chars = 0) := by
    intro i h1 h2
    rw [hA_num] at h1
    have hi : st.input_num ≤ i := by omega
    rw [hA_ui, List.getD_append_right _ _ _ _ (by rw [hblen]; exact hi), hblen]
    exact getD_map_classify lines (i - st.input_num)
  rw [undoN_of_zero_counts lines.length (appendInput st lines) (by omega) hz]
  refine ⟨?_, hA_cnt.1, hA_cnt.2⟩
  simp [hA_num]

theorem c7_append_then_k_undos_witness :
    (undoN 2 (appendInput traceS3 ["a();", "b();"])).input_num = traceS3.input_num ∧
    (undoN 2 (appendInput traceS3 ["a();", "b();"])).output_chars_printed =
      traceS3.output_chars_printed := by
  have h := c7_append_then_k_undos traceS3 ["a();", "b();"] (by decide)
  exact ⟨h.1, h.2.1⟩

/-! ### Unknown dot commands (claim C9) -/

/-- Claim C9: a control command is recognized exactly when the whole
(trimmed) input equals a command name — membership in `dot_commands` is
exact string equality — and any other input beginning with a dot prints
the unknown-command banner plus the help listing and is a complete no-op:
`(col_inp, run_compiler) = (False, False)` with the state untouched. -/
theorem c9_unknown_dot_is_noop (st : RState) (inp : String)
    (h1 : startsWithDot inp = true) (h2 : memStr inp dotCommandNames = false) :
    check_input_type st inp = .cont false false st := by
  unfold check_input_type
  simp [h1, h2]

theorem c9_unknown_dot_is_noop_witness :
    check_input_type initState ".undo" = .cont false false initState :=
  c9_unknown_dot_is_noop initState ".undo" (by decide) (by decide)

/-! ### The assembled program (claim C8) -/

theorem cleanLines_cons_nonblank {x : String} (h : isBlankLine x = false)
    (ys : List String) (b : Bool) : cleanLines (x :: ys) b = x :: cleanLines ys false := by
  simp [cleanLines, h]

theorem cleanLines_cons_blank_false {x : String} (h : isBlankLine x = true)
    (ys : List String) : cleanLines (x :: ys) false = x :: cleanLines ys true := by
  simp [cleanLines, h]

theorem cleanLines_cons_blank_true {x : String} (h : isBlankLine x = true)
    (ys : List String) : cleanLines (x :: ys) true = cleanLines ys true := by
  simp [cleanLines, h]

theorem cleanLines_nonblank_seg (xs : List String) (h : ∀ l ∈ xs, isBlankLine l = false) :
    ∀ ys, cleanLines (xs ++ ys) false = xs ++ cleanLines ys false := by
  induction xs with
  | nil => intro ys; rfl
  | cons x xs ih =>
    intro ys
    rw [List.cons_append, cleanLines_cons_nonblank (h x (by simp)) _ false,
      ih (fun l hl => h l (by simp [hl])) ys, List.cons_append]

/-- The first kept line after a blank run is never blank. -/
theorem cleanLines_true_head_nonblank :
    ∀ (ls : List String) (h : String) (t : List String),
      cleanLines ls true = h :: t → isBlankLine h = false := by
  intro ls
  induction ls with
  | nil => intro h t hc; simp [cleanLines] at hc
  | cons x xs ih =>
    intro h t hc
    by_cases hx : isBlankLine x = true
    · rw [cleanLines_cons_blank_true hx] at hc
      exact ih h t hc
    · rw [cleanLines_cons_nonblank (by simpa using hx)] at hc
      cases hc
      simpa using hx

/-- `_clean_source` never leaves two adjacent blank lines. -/
theorem noTwoBlank_cleanLines : ∀ (ls : List String) (b : Bool), noTwoBlank (cleanLines ls b) := by
  intro ls
  induction ls with
  | nil => intro b; simp [cleanLines, noTwoBlank]
  | cons x xs ih =>
    intro b
    by_cases hx : isBlankLine x = true
    · cases b with
      | true => rw [cleanLines_cons_blank_true hx]; exact ih true
      | false =>
        rw [cleanLines_cons_blank_false hx]
        rcases hc : cleanLines xs true with _ | ⟨h, t⟩
        · simp [noTwoBlank]
        · have hh := cleanLines_true_head_nonblank xs h t hc
          have := ih true
          rw [hc] at this
          exact ⟨fun hcontra => by simp [hh] at hcontra, this⟩
    · rw [cleanLines_cons_nonblank (by simpa using hx)]
      rcases hc : cleanLines xs false with _ | ⟨h, t⟩
      · simp [noTwoBlank]
      · have := ih false
        rw [hc] at this
        exact ⟨fun hcontra => by simp [hcontra.1] at hx, this⟩

theorem nonblank_ne_empty {l : String} (h : isBlankLine l = false) : ¬(l = "") := by
  intro he
  subst he
  simp [isBlankLine] at h

theorem blank_indent (t : String) : isBlankLine ("    " ++ t) = isBlankLine t := by
  simp [isBlankLine, String.data_append]
  intro h
  decide

/-- Every line of a section of `p` is the text of some entry of `p`. -/
theorem sections_sublists (p : List UserInput) (hp : ∀ u ∈ p, isBlankLine u.inp = false) :
    (∀ l ∈ get_user_includes p, isBlankLine l = false) ∧
    (∀ l ∈ get_user_functions p, isBlankLine l = false) ∧
    (∀ l ∈ get_user_commands p, isBlankLine l = false) := by
  refine ⟨?_, ?_, ?_⟩ <;>
    · intro l hl
      simp [get_user_includes, get_user_functions, get_user_commands,
        List.mem_map, List.mem_filter] at hl
      rcases hl with ⟨u, hu, rfl⟩
      exact hp u hu.1

theorem joinedNonempty_of_nonblank {x : String} (xs : List String)
    (hx : isBlankLine x = false) : joinedNonempty (x :: xs) = true := by
  cases xs with
  | nil => simp [joinedNonempty, nonblank_ne_empty hx]
  | cons y ys => simp [joinedNonempty]

theorem map_indent_nonblank (ss : List String) (h : ∀ l ∈ ss, isBlankLine l = false) :
    (ss ++ [""]).map (fun l => if l = "" then l else "    " ++ l) =
      ss.map (fun t => "    " ++ t) ++ [""] := by
  rw [List.map_append]
  congr 1
  exact List.map_congr_left fun a ha => by
    simp [nonblank_ne_empty (h a ha)]

/-- Cleaning an optional section entered right after a kept non-blank line
(previous-blank state `false`). -/
theorem clean_sec_false (X : List String) (hX : ∀ l ∈ X, isBlankLine l = false)
    (ys : List String) :
    cleanLines ((if joinedNonempty X then "" :: X else []) ++ ("" :: ys)) false
      = "" :: ((if X = [] then [] else X ++ [""]) ++ cleanLines ys true) := by
  rcases X with _ | ⟨x, xs⟩
  · rw [if_pos rfl, show joinedNonempty [] = false from rfl]
    simp only [Bool.false_eq_true, if_false, List.nil_append]
    rw [cleanLines_cons_blank_false (by decide)]
  · rw [if_neg (List.cons_ne_nil x xs), joinedNonempty_of_nonblank xs (hX x (by simp))]
    simp only [if_true, List.cons_append, List.append_assoc, List.cons_append]
    rw [cleanLines_cons_blank_false (by decide),
      cleanLines_cons_nonblank (hX x (by simp)),
      cleanLines_nonblank_seg xs (fun l hl => hX l (by simp [hl])),
      cleanLines_cons_blank_false (by decide)]
    simp

/-- Cleaning an optional section entered right after a kept blank line
(previous-blank state `true`): the leading blank of the section is
swallowed. -/
theorem clean_sec_true (X : List String) (hX : ∀ l ∈ X, isBlankLine l = false)
    (ys : List String) :
    cleanLines ((if joinedNonempty X then "" :: X else []) ++ ("" :: ys)) true
      = (if X = [] then [] else X ++ [""]) ++ cleanLines ys true := by
  rcases X with _ | ⟨x, xs⟩
  · rw [if_pos rfl, show joinedNonempty [] = false from rfl]
    simp only [Bool.false_eq_true, if_false, List.nil_append]
    rw [cleanLines_cons_blank_true (by decide)]
  · rw [if_neg (List.cons_ne_nil x xs), joinedNonempty_of_nonblank xs (hX x (by simp))]
    simp only [if_true, List.cons_append, List.append_assoc]
    rw [cleanLines_cons_blank_true (by decide),
      cleanLines_cons_nonblank (hX x (by simp)),
      cleanLines_nonblank_seg xs (fun l hl => hX l (by simp [hl])),
      cleanLines_cons_blank_false (by decide)]
    simp

/-- Cleaning the entry-point block (always entered after a kept blank
line). -/
theorem clean_tail (S : List String) (hS : ∀ l ∈ S, isBlankLine l = false) :
    cleanLines ("int main(void) \x7b" :: (indentBlock S ++ ["    return 0;", "\x7d", ""])) true
      = "int main(void) \x7b" ::
          ((if S = [] then ["    "]
            else S.map (fun t => "    " ++ t) ++ [""]) ++ ["    return 0;", "\x7d", ""]) := by
  rcases S with _ | ⟨s, ss⟩
  · simp only [indentBlock, if_pos rfl, List.cons_append, List.nil_append]
    rw [cleanLines_cons_nonblank (by decide),
      cleanLines_cons_blank_false (by decide),
      cleanLines_cons_blank_true (by decide),
      cleanLines_cons_nonblank (by decide),
      cleanLines_cons_nonblank (by decide),
      cleanLines_cons_blank_false (by decide)]
    simp [cleanLines]
  · have hs : isBlankLine ("    " ++ s) = false := by
      rw [blank_indent]
      exact hS s (by simp)
    have hss : ∀ l ∈ ss.map (fun t => "    " ++ t), isBlankLine l = false := by
      intro l hl
      rcases List.mem_map.mp hl with ⟨t, ht, rfl⟩
      rw [blank_indent]
      exact hS t (by simp [ht])
    simp only [indentBlock, List.cons_ne_nil, if_neg,
      map_indent_nonblank ss (fun l hl => hS l (by simp [hl])),
      List.cons_append, List.append_assoc, List.map_cons]
    rw [cleanLines_cons_nonblank (by decide),
      cleanLines_cons_nonblank hs,
      cleanLines_nonblank_seg _ hss,
      cleanLines_cons_blank_false (by decide)]
    simp only [List.nil_append]
    rw [show cleanLines ["    return 0;", "\x7d", ""] true = ["    return 0;", "\x7d", ""]
      from by decide]
    simp

/-- Claim C8: for every visible prefix the assembled program is the
deterministic function `get_full_source` of that prefix; its text never
contains two consecutive blank lines; and, when the prefix's lines are
non-blank, it has exactly the claimed shape — the fixed boilerplate
inclusion line, then all directive lines, then all function-definition
lines, then the entry point wrapping the indented statement lines followed
by `return 0;` — in category order with the submission order preserved
inside each category. -/
theorem c8_assembled_structure (p : List UserInput) :
    noTwoBlank (get_full_source p) ∧
    ((∀ u ∈ p, isBlankLine u.inp = false) → get_full_source p = assembledForm p) := by
  constructor
  · exact noTwoBlank_cleanLines _ false
  · intro hp
    obtain ⟨hI, hF, hS⟩ := sections_sublists p hp
    unfold get_full_source clean_source renderLines assembledForm
    simp only [List.append_assoc, List.singleton_append, List.cons_append, List.nil_append]
    rw [cleanLines_cons_nonblank (by decide),
      clean_sec_false _ hI _,
      clean_sec_true _ hF _,
      clean_tail _ hS]

theorem c8_assembled_structure_witness :
    get_full_source [⟨"int x = 5;", false, false, 0, 0⟩] =
      assembledForm [⟨"int x = 5;", false, false, 0, 0⟩] :=
  (c8_assembled_structure [⟨"int x = 5;", false, false, 0, 0⟩]).2 (by decide)

/-! ### `undo`/`redo` never touch `compile_error` (claim C10) -/

/-- Two states with the same `compile_error` make `dot_e` print the same
text. -/
theorem dotEDisplay_congr {st₁ st₂ : RState}
    (h : st₁.compile_error = st₂.compile_error) : dotEDisplay st₁ = dotEDisplay st₂ := by
  unfold dotEDisplay
  rw [h]

/-- Claim C10: `undo` and `redo` never modify `compile_error`; only a
compile cycle replaces it (with the diagnostics on failure, `None` on
success), so after undoing the line that caused a failure, `dot_e` still
displays the stale error until the next compile runs. -/
theorem c10_undo_redo_preserve_compile_error (st : RState) :
    (undo st).2.compile_error = st.compile_error ∧
    (redo st).2.compile_error = st.compile_error ∧
    dotEDisplay (undo st).2 = dotEDisplay st ∧
    dotEDisplay (redo st).2 = dotEDisplay st ∧
    ∀ co outLen errLen, (compileRunStep st co outLen errLen).compile_error = run_compile co := by
  have hu : (undo st).2.compile_error = st.compile_error := by
    unfold undo
    split <;> rfl
  have hr : (redo st).2.compile_error = st.compile_error := by
    unfold redo
    split <;> rfl
  refine ⟨hu, hr, dotEDisplay_congr hu, dotEDisplay_congr hr, ?_⟩
  intro co outLen errLen
  simp only [compileRunStep]
  split
  · rfl
  · split <;> split <;> rfl

end Igcc
